import Mathlib

/-!
Shallow embedding of the IPL statistics ETL pipeline of `data_loader.py`
(function `process_and_load_data`), together with proofs settling the claims
of the specification against it.

Modelling conventions:
* JSON objects become structures; optional keys become `Option` fields.
* Python dicts whose key order matters (`extras`, `outcome.by`) become
  association lists in document order; `list(d.keys())[0]` becomes the head.
* Python floats `over + (i + 1) / 10.0` become the exact rationals
  `over + (i + 1) / 10` in `ℚ` (for the small magnitudes involved, double
  rounding never merges two distinct values of this form, so ordering and
  equality facts transfer).
* Exceptions that `process_and_load_data` does not catch (`IndexError`,
  `StopIteration`, `json.JSONDecodeError`) become `Except.error`.
* SQLAlchemy's autoincrement primary keys for teams become allocation-order
  ids (`cache.length + 1`); the session's identity map (which makes the
  repeated `session.add_all(cache.values())` a no-op for rows already added)
  is modelled by adding only the entities newly created for each document.
-/

namespace IPL

/-- The `runs` object of one delivery (`runs: {batter, extras, total}`). -/
structure Runs where
  batter : Int
  extras : Int
  total : Int
deriving DecidableEq

/-- One entry of a delivery's `wickets` list. The Python code reads the keys
`player_out`, `kind` and `fielders` with `.get`, so each is optional; the
truthiness test `if wicket_info` on the dict corresponds to at least one
field being present. -/
structure WicketInfo where
  player_out : Option String := none
  kind : Option String := none
  fielders : Option (List String) := none
deriving DecidableEq

/-- Truthiness of the wicket dict: the empty dict `{}` is falsy. -/
def WicketInfo.isEmptyW : WicketInfo → Bool
  | ⟨none, none, none⟩ => true
  | _ => false

/-- One delivery of the input document. `extras` is the optional
`{type: count}` dict as an association list in key order; `wickets` is the
optional list of wicket entries. -/
structure DeliveryData where
  batter : String
  bowler : String
  non_striker : String
  runs : Runs
  extras : Option (List (String × Int)) := none
  wickets : Option (List WicketInfo) := none
deriving DecidableEq

/-- One over of the input document: the declared over index and the list of
deliveries in document order. -/
structure OverData where
  over : Nat
  deliveries : List DeliveryData
deriving DecidableEq

/-- One innings of the input document. -/
structure InningData where
  team : String
  overs : List OverData
deriving DecidableEq

/-- The `outcome` object: optional winner name and the optional `by`
structure, an association list `margin-type ↦ margin` in key order. -/
structure OutcomeData where
  winner : Option String := none
  by_ : Option (List (String × Int)) := none
deriving DecidableEq

/-- The top-level `info` object of one document. `registry_people` is the
`registry.people` dict (display name ↦ external id) in insertion order;
`none` covers both a missing `registry` and a missing `people` key, which
the loader treats identically. Keys the loader reads with `[...]` and whose
absence it never handles (`teams`, `dates`, `toss`) are plain fields. -/
structure Info where
  registry_people : Option (List (String × String)) := none
  teams : List String
  season : Option String := none
  venue : Option String := none
  city : Option String := none
  dates : List String := []
  match_type : Option String := none
  balls_per_over : Option Int := none
  toss_winner : String
  toss_decision : String
  outcome : Option OutcomeData := none
  player_of_match : Option (List String) := none
  officials : Option String := none
deriving DecidableEq

/-- One parsed match document. -/
structure Doc where
  info : Info
  innings : List InningData
deriving DecidableEq

/-- The player cache: `(external id, display name)` pairs in insertion
order, modelling the Python dict `player_cache : pid -> Player`. -/
abbrev PlayerCache := List (String × String)

/-- The team cache: `(id, name)` pairs in insertion order, modelling the
Python dict `team_cache : name -> Team`; ids model the store's
autoincrement keys in allocation order. -/
abbrev TeamCache := List (Nat × String)

/-- Lines 106-109: seed the player cache from `registry.people`, inserting
each `(pid, name)` unless the pid is already cached. -/
def seedPlayers (cache : PlayerCache) : Option (List (String × String)) → PlayerCache
  | none => cache
  | some people =>
    people.foldl (fun c p => if c.any (fun q => q.1 = p.2) then c else c ++ [(p.2, p.1)]) cache

/-- Lines 111-113 as a lookup-or-allocate operation on the team cache: the
Entity Resolver's `resolveTeam`. Returns the id for `name`, allocating the
next id when the name is new. -/
def resolveTeam (cache : TeamCache) (name : String) : Nat × TeamCache :=
  match cache.find? (fun t => t.2 = name) with
  | some t => (t.1, cache)
  | none => (cache.length + 1, cache ++ [(cache.length + 1, name)])

/-- Lines 111-113: insert every team name of `info.teams` that is not yet
cached. -/
def seedTeams (cache : TeamCache) (names : List String) : TeamCache :=
  names.foldl (fun c n => (resolveTeam c n).2) cache

/-- The pattern `next((t.id for t in team_cache.values() if t.name == name), None)`:
first cached team with the given name. -/
def lookupTeamId (cache : TeamCache) (name : String) : Option Nat :=
  (cache.find? (fun t => t.2 = name)).map (fun t => t.1)

/-- The same lookup when the compared name itself came from `.get` and may
be `None`: a string name never equals `None`, so the result is `none`. -/
def lookupTeamIdOpt (cache : TeamCache) : Option String → Option Nat
  | none => none
  | some n => lookupTeamId cache n

/-- The pattern `next((p.id for p in player_cache.values() if p.name == name), None)`. -/
def lookupPlayerId (cache : PlayerCache) (name : String) : Option String :=
  (cache.find? (fun p => p.2 = name)).map (fun p => p.1)

/-- Player lookup against a possibly-missing name. -/
def lookupPlayerIdOpt (cache : PlayerCache) : Option String → Option String
  | none => none
  | some n => lookupPlayerId cache n

/-- The non-defaulted `next(t.id for t in team_cache.values() if t.name == name)`
of lines 135-137 and 148: raises `StopIteration` when no team matches. -/
def expectTeam (cache : TeamCache) (name : String) : Except String Nat :=
  match lookupTeamId cache name with
  | some i => .ok i
  | none => .error "StopIteration"

/-- Line 153, `delivery_data.get('wickets', [{}])[0]`: the empty dict when
the key is absent, an `IndexError` on an empty list, else the first entry. -/
def firstWicket : Option (List WicketInfo) → Except String WicketInfo
  | none => .ok {}
  | some [] => .error "list index out of range"
  | some (w :: _) => .ok w

/-- Line 165, `list(delivery_data.get('extras', {}).keys())[0] if 'extras' in
delivery_data else None`: the guard tests key presence, the extraction
indexes the first key, so a present-but-empty dict raises `IndexError`. -/
def extrasType : Option (List (String × Int)) → Except String (Option String)
  | none => .ok none
  | some [] => .error "list index out of range"
  | some (e :: _) => .ok (some e.1)

/-- Line 169: `[f['name'] for f in wicket_info.get('fielders', [])] if
wicket_info.get('fielders') else None`; an absent or empty fielder list is
falsy and yields `None`. -/
def fieldersOut : Option (List String) → Option (List String)
  | some (f :: fs) => some (f :: fs)
  | _ => none

/-- One row of the `deliveries` table as assembled by lines 159-170. -/
structure DeliveryRow where
  over : ℚ
  batter_id : Option String
  bowler_id : Option String
  non_striker_id : Option String
  runs_batter : Int
  runs_extras : Int
  runs_total : Int
  extras_type : Option String
  is_wicket : Bool
  player_out_id : Option String
  wicket_kind : Option String
  wicket_fielders : Option (List String)
deriving DecidableEq

/-- One row of the `innings` table together with its delivery rows. -/
structure InningRow where
  inning_number : Nat
  batting_team_id : Nat
  deliveries : List DeliveryRow
deriving DecidableEq

/-- One row of the `matches` table together with its innings rows.
`match_date` carries the raw first entry of `dates` (the `pd.to_datetime`
parse is not modelled; no claim concerns it). -/
structure MatchRow where
  id : String
  season : Option String
  venue : Option String
  city : Option String
  match_date : String
  match_type : Option String
  balls_per_over : Option Int
  team1_id : Nat
  team2_id : Nat
  toss_winner_id : Nat
  toss_decision : String
  winner_id : Option Nat
  outcome_result : Option String
  outcome_margin : Option Int
  player_of_match_id : Option String
  officials : Option String
  innings : List InningRow
deriving DecidableEq

/-- `outcome.get('by')` through the optional `outcome` object. -/
def outcomeBy (o : Option OutcomeData) : Option (List (String × Int)) :=
  o.bind (fun x => x.by_)

/-- `outcome.get('winner')` through the optional `outcome` object. -/
def outcomeWinner (o : Option OutcomeData) : Option String :=
  o.bind (fun x => x.winner)

/-- `info.get('player_of_match', [None])[0]`: `None` when the key is absent,
an `IndexError` when it is an empty list, else the first name. -/
def firstPlayerOfMatch : Option (List String) → Except String (Option String)
  | none => .ok none
  | some [] => .error "list index out of range"
  | some (n :: _) => .ok (some n)

/-- Python `l[i]`: `IndexError` when out of range. -/
def getIdx (l : List α) (i : Nat) : Except String α :=
  match l.get? i with
  | some a => .ok a
  | none => .error "list index out of range"

/-- Lines 153-170: build one delivery row. `ds` is the over's full delivery
list and `overIdx` its declared index; the stored over value is
`over_data['over'] + (over_data['deliveries'].index(delivery_data) + 1) / 10.0`,
where `.index` finds the first list entry equal to `d`. -/
def mkDelivery (pc : PlayerCache) (overIdx : Nat) (ds : List DeliveryData)
    (d : DeliveryData) : Except String DeliveryRow := do
  let w ← firstWicket d.wickets
  let et ← extrasType d.extras
  pure {
    over := (overIdx : ℚ) + (((ds.indexOf d : Nat) : ℚ) + 1) / 10
    batter_id := lookupPlayerId pc d.batter
    bowler_id := lookupPlayerId pc d.bowler
    non_striker_id := lookupPlayerId pc d.non_striker
    runs_batter := d.runs.batter
    runs_extras := d.runs.extras
    runs_total := d.runs.total
    extras_type := et
    is_wicket := !w.isEmptyW
    player_out_id := lookupPlayerIdOpt pc w.player_out
    wicket_kind := w.kind
    wicket_fielders := fieldersOut w.fielders
  }

/-- Effectful map over a list in the `Except` monad, written structurally:
the loops of lines 147-171 accumulate rows in order and propagate the first
uncaught exception. -/
def mapE (f : α → Except String β) : List α → Except String (List β)
  | [] => .ok []
  | a :: l => do
    let b ← f a
    let bs ← mapE f l
    pure (b :: bs)

/-- Lines 151-171, one over: process each delivery of the over in document
order. -/
def mkOverRows (pc : PlayerCache) (od : OverData) : Except String (List DeliveryRow) :=
  mapE (mkDelivery pc od.over od.deliveries) od.deliveries

/-- The over values stored for one over's deliveries, read off from the
formula of line 160. -/
def overVals (od : OverData) : List ℚ :=
  od.deliveries.map
    (fun d => (od.over : ℚ) + (((od.deliveries.indexOf d : Nat) : ℚ) + 1) / 10)

/-- Lines 147-172, one innings: resolve the batting team (a failed
resolution raises `StopIteration`), then flatten the per-over delivery
rows. `idx` is the 0-based position of the innings in the document. -/
def mkInning (pc : PlayerCache) (tc : TeamCache) (idx : Nat)
    (idata : InningData) : Except String InningRow := do
  let bt ← expectTeam tc idata.team
  let rows ← mapE (mkOverRows pc) idata.overs
  pure { inning_number := idx + 1, batting_team_id := bt, deliveries := rows.flatten }

/-- Lines 121-174: assemble the match row of one document, in the source's
evaluation order (so the first uncaught exception wins). -/
def mkMatch (pc : PlayerCache) (tc : TeamCache) (matchId : String) (doc : Doc) :
    Except String MatchRow := do
  let info := doc.info
  let pomName ← firstPlayerOfMatch info.player_of_match
  let playerId := lookupPlayerIdOpt pc pomName
  let winnerTeamId := lookupTeamIdOpt tc (outcomeWinner info.outcome)
  let date ← getIdx info.dates 0
  let team1Name ← getIdx info.teams 0
  let team1Id ← expectTeam tc team1Name
  let team2Name ← getIdx info.teams 1
  let team2Id ← expectTeam tc team2Name
  let tossWinnerId ← expectTeam tc info.toss_winner
  let inns ← mapE (fun p => mkInning pc tc p.1 p.2) doc.innings.enum
  pure {
    id := matchId
    season := info.season
    venue := info.venue
    city := info.city
    match_date := date
    match_type := info.match_type
    balls_per_over := info.balls_per_over
    team1_id := team1Id
    team2_id := team2Id
    toss_winner_id := tossWinnerId
    toss_decision := info.toss_decision
    winner_id := winnerTeamId
    outcome_result := match outcomeBy info.outcome with
      | some (p :: _) => some p.1
      | _ => none
    outcome_margin := match outcomeBy info.outcome with
      | some (p :: _) => some p.2
      | _ => none
    player_of_match_id := playerId
    officials := info.officials
    innings := inns
  }

/-- The two run-scoped caches. -/
structure Caches where
  players : PlayerCache
  teams : TeamCache
deriving DecidableEq

/-- Lines 103-174, one document: seed the caches from the registry and the
team list, then assemble the match row using the seeded caches. -/
def processDoc (c : Caches) (matchId : String) (doc : Doc) :
    Except String (Caches × MatchRow) := do
  let pc := seedPlayers c.players doc.info.registry_people
  let tc := seedTeams c.teams doc.info.teams
  let m ← mkMatch pc tc matchId doc
  pure (⟨pc, tc⟩, m)

/-- The relational store contents relevant to the run: team rows, player
rows and match rows (each match row carrying its innings and deliveries). -/
structure Store where
  teams : List (Nat × String)
  players : List (String × String)
  matchRows : List MatchRow
deriving DecidableEq

/-- The empty store. -/
def emptyStore : Store := ⟨[], [], []⟩

/-- Concatenate two stores table by table. -/
def Store.push (s t : Store) : Store :=
  ⟨s.teams ++ t.teams, s.players ++ t.players, s.matchRows ++ t.matchRows⟩

/-- The SQLAlchemy session: rows already committed and rows added but not
yet committed. -/
structure Session where
  committed : Store
  pending : Store
deriving DecidableEq

/-- `session.commit()`: pending rows become committed. -/
def Session.commit (s : Session) : Session :=
  ⟨s.committed.push s.pending, emptyStore⟩

/-- `session.rollback()`: pending rows are discarded, committed rows stay. -/
def Session.rollback (s : Session) : Session :=
  ⟨s.committed, emptyStore⟩

/-- `os.path.splitext(file_name)[0]`. The loader only reaches file names it
selected with `endswith('.json')`, and for a name ending in `.json` the
split drops exactly that 5-character extension. -/
def stem (s : String) : String :=
  s.dropRight 5

/-- Lines 98-174, one source file. A file is `(name, parse)` where `parse =
none` models a file `json.load` rejects: the `JSONDecodeError` is uncaught
and aborts the run. For a parsed document: seed the caches, add the
newly created players and teams to the session (`session.add_all` of the
full caches re-adds existing rows, which the session's identity map makes a
no-op, so only the entities appended by this document's seeding are new),
commit (line 119), assemble the match row and add it to the session
(line 174, committed only by a later commit). -/
def processFile (st : Caches × Session) (file : String × Option Doc) :
    Except String (Caches × Session) :=
  match file.2 with
  | none => .error ("JSONDecodeError: " ++ file.1)
  | some doc => do
    let pc := seedPlayers st.1.players doc.info.registry_people
    let tc := seedTeams st.1.teams doc.info.teams
    let sAdded : Session :=
      ⟨st.2.committed,
       st.2.pending.push ⟨tc.drop st.1.teams.length, pc.drop st.1.players.length, []⟩⟩
    let sCommitted := sAdded.commit
    let m ← mkMatch pc tc (stem file.1) doc
    pure (⟨pc, tc⟩, ⟨sCommitted.committed, sCommitted.pending.push ⟨[], [], [m]⟩⟩)

/-- The initial run state: empty caches, empty session. -/
def initState : Caches × Session := ⟨⟨[], []⟩, ⟨emptyStore, emptyStore⟩⟩

/-- The document loop of lines 98-174, starting from empty caches and an
empty session. -/
def processLoop (files : List (String × Option Doc)) : Except String (Caches × Session) :=
  files.foldlM processFile initState

/-- Lines 90-183, `process_and_load_data`: run the document loop, then the
final `session.commit()` of line 177 inside `try/except`. When the final
commit fails the exception is caught: the session is rolled back, the error
is only printed, and the function returns normally — so the result is `ok`
either way; only exceptions raised inside the loop propagate. -/
def processRun (finalCommitFails : Bool) (files : List (String × Option Doc)) :
    Except String Session :=
  match processLoop files with
  | .error e => .error e
  | .ok st => if finalCommitFails then .ok st.2.rollback else .ok st.2.commit

/-! Concrete sample data, used to evaluate the pipeline at specific inputs. -/

/-- A dot ball: no runs, no extras, no wicket. -/
def dotBall : DeliveryData :=
  { batter := "BatA", bowler := "BowB", non_striker := "NsC", runs := ⟨0, 0, 0⟩ }

/-- A boundary: four runs off the bat, otherwise like `dotBall`. -/
def fourBall : DeliveryData :=
  { batter := "BatA", bowler := "BowB", non_striker := "NsC", runs := ⟨4, 0, 4⟩ }

/-- A delivery whose wicket entry names the player out but carries no
`kind` key. -/
def noKindWicketBall : DeliveryData :=
  { batter := "BatA", bowler := "BowB", non_striker := "NsC", runs := ⟨0, 0, 0⟩,
    wickets := some [{ player_out := some "BatA" }] }

/-- The §8 scenario: a wicket entry with kind `bowled` and no fielders. -/
def bowledBall : DeliveryData :=
  { batter := "BatA", bowler := "BowB", non_striker := "NsC", runs := ⟨0, 0, 0⟩,
    wickets := some [{ player_out := some "BatA", kind := some "bowled" }] }

/-- A delivery carrying a `wickets` key whose value is the empty list. -/
def emptyWicketsBall : DeliveryData :=
  { batter := "BatA", bowler := "BowB", non_striker := "NsC", runs := ⟨0, 0, 0⟩,
    wickets := some [] }

/-- A delivery carrying an `extras` key whose value is the empty dict. -/
def emptyExtrasBall : DeliveryData :=
  { batter := "BatA", bowler := "BowB", non_striker := "NsC", runs := ⟨0, 0, 0⟩,
    extras := some [] }

/-- A wide: one extra run, extras dict `{wides: 1}`. -/
def wideBall : DeliveryData :=
  { batter := "BatA", bowler := "BowB", non_striker := "NsC", runs := ⟨0, 1, 1⟩,
    extras := some [("wides", 1)] }

/-- An over containing the same dot ball twice. -/
def dupOver : OverData := ⟨0, [dotBall, dotBall]⟩

/-- An innings whose single over repeats a delivery around a distinct one:
document order `dot, four, dot`. -/
def dupInning : InningData := ⟨"T1", [⟨0, [dotBall, fourBall, dotBall]⟩]⟩

/-- An innings with two overs of pairwise-distinct deliveries and strictly
increasing declared over indices. -/
def okInning : InningData := ⟨"T1", [⟨0, [dotBall, fourBall]⟩, ⟨1, [dotBall]⟩]⟩

/-- A one-team team cache for processing single innings directly. -/
def tcOne : TeamCache := [(1, "T1")]

/-- A two-team team cache as seeded from `sampleDoc`. -/
def tcTwo : TeamCache := [(1, "TA"), (2, "TB")]

/-- The player cache as seeded from `sampleDoc`'s registry. -/
def pcThree : PlayerCache := [("P1", "BatA"), ("P2", "BowB"), ("P3", "NsC")]

/-- A small complete document: registry of three players, two teams, one
innings of one over of one dot ball. -/
def sampleDoc : Doc :=
  { info := { registry_people := some [("BatA", "P1"), ("BowB", "P2"), ("NsC", "P3")],
              teams := ["TA", "TB"],
              dates := ["2024-04-01"],
              toss_winner := "TA",
              toss_decision := "bat" },
    innings := [⟨"TA", [⟨0, [dotBall]⟩]⟩] }

/-- The delivery row produced for `dotBall` as the first ball of over 0
under `pcThree`. -/
def sampleDeliveryRow : DeliveryRow :=
  { over := 1/10, batter_id := some "P1", bowler_id := some "P2",
    non_striker_id := some "P3", runs_batter := 0, runs_extras := 0,
    runs_total := 0, extras_type := none, is_wicket := false,
    player_out_id := none, wicket_kind := none, wicket_fielders := none }

/-- The match row produced for `sampleDoc` under match id `m1`. -/
def sampleMatchRow : MatchRow :=
  { id := "m1", season := none, venue := none, city := none,
    match_date := "2024-04-01", match_type := none, balls_per_over := none,
    team1_id := 1, team2_id := 2, toss_winner_id := 1, toss_decision := "bat",
    winner_id := none, outcome_result := none, outcome_margin := none,
    player_of_match_id := none, officials := none,
    innings := [{ inning_number := 1, batting_team_id := 1,
                  deliveries := [sampleDeliveryRow] }] }

/-- A document whose outcome carries a present-but-empty `by` structure. -/
def byEmptyDoc : Doc :=
  { info := { teams := ["TA", "TB"],
              dates := ["2024-04-01"],
              toss_winner := "TA",
              toss_decision := "bat",
              outcome := some { winner := some "TA", by_ := some [] } },
    innings := [] }

/-- A document whose outcome is a win by 20 runs. -/
def byRunsDoc : Doc :=
  { info := { teams := ["TA", "TB"],
              dates := ["2024-04-01"],
              toss_winner := "TA",
              toss_decision := "bat",
              outcome := some { winner := some "TA", by_ := some [("runs", 20)] } },
    innings := [] }

/-- The one-file run input built from `sampleDoc`. -/
def sampleFiles : List (String × Option Doc) := [("m1.json", some sampleDoc)]

/-- The loop state after processing `sampleFiles`: seeded caches, the team
and player rows committed by the per-document commit of line 119, and the
match row still pending. -/
def sampleLoopState : Caches × Session :=
  (⟨pcThree, tcTwo⟩,
   ⟨⟨tcTwo, pcThree, []⟩, ⟨[], [], [sampleMatchRow]⟩⟩)

/-- The delivery row produced for `noKindWicketBall` under an empty player
cache: the wicket entry is truthy, so `is_wicket` is set, yet no `kind` key
exists. -/
def noKindRow : DeliveryRow :=
  { over := 1/10, batter_id := none, bowler_id := none, non_striker_id := none,
    runs_batter := 0, runs_extras := 0, runs_total := 0, extras_type := none,
    is_wicket := true, player_out_id := none, wicket_kind := none,
    wicket_fielders := none }

/-- A delivery row for `dotBall` under an empty player cache, over value
1/10. -/
def dupDotRow : DeliveryRow :=
  { over := 1/10, batter_id := none, bowler_id := none, non_striker_id := none,
    runs_batter := 0, runs_extras := 0, runs_total := 0, extras_type := none,
    is_wicket := false, player_out_id := none, wicket_kind := none,
    wicket_fielders := none }

/-- A delivery row for `fourBall` under an empty player cache, over value
2/10. -/
def dupFourRow : DeliveryRow :=
  { over := 2/10, batter_id := none, bowler_id := none, non_striker_id := none,
    runs_batter := 4, runs_extras := 0, runs_total := 4, extras_type := none,
    is_wicket := false, player_out_id := none, wicket_kind := none,
    wicket_fielders := none }

/-- The innings row the decomposer produces for `dupInning`: the repeated
dot ball reuses the first occurrence's index, so the over values run
1/10, 2/10, 1/10. -/
def dupInningRow : InningRow :=
  { inning_number := 1, batting_team_id := 1,
    deliveries := [dupDotRow, dupFourRow, dupDotRow] }

/-- The second-over dot-ball row of `okInning`, over value 1 + 1/10. -/
def amDotRow2 : DeliveryRow :=
  { over := 11/10, batter_id := none, bowler_id := none, non_striker_id := none,
    runs_batter := 0, runs_extras := 0, runs_total := 0, extras_type := none,
    is_wicket := false, player_out_id := none, wicket_kind := none,
    wicket_fielders := none }

/-- The innings row the decomposer produces for `okInning`. -/
def amInningRow : InningRow :=
  { inning_number := 1, batting_team_id := 1,
    deliveries := [dupDotRow, dupFourRow, amDotRow2] }

/-- The match row assembled for `byEmptyDoc` under `tcTwo` and an empty
player cache: the present-but-empty `by` structure is falsy, so both
outcome fields are null. -/
def byEmptyMatchRow : MatchRow :=
  { id := "m8", season := none, venue := none, city := none,
    match_date := "2024-04-01", match_type := none, balls_per_over := none,
    team1_id := 1, team2_id := 2, toss_winner_id := 1, toss_decision := "bat",
    winner_id := some 1, outcome_result := none, outcome_margin := none,
    player_of_match_id := none, officials := none, innings := [] }

/-! Helper lemmas. -/

theorem exceptBind_ok {α β : Type} {x : Except String α} {f : α → Except String β}
    {b : β} (h : x >>= f = .ok b) : ∃ a, x = .ok a ∧ f a = .ok b := by
  cases x with
  | error e => simp [Bind.bind, Except.bind] at h
  | ok a => exact ⟨a, rfl, by simpa [Bind.bind, Except.bind] using h⟩

theorem mapE_nil {α β : Type} (f : α → Except String β) : mapE f [] = .ok [] := rfl

theorem mapE_ok_mem {α β : Type} {f : α → Except String β} :
    ∀ {l : List α} {rs : List β}, mapE f l = .ok rs → ∀ r ∈ rs, ∃ a ∈ l, f a = .ok r := by
  intro l
  induction l with
  | nil => intro rs h r hr; rw [mapE] at h; cases h; simp at hr
  | cons a t ih =>
    intro rs h r hr
    rw [mapE] at h
    obtain ⟨b, hb, h⟩ := exceptBind_ok h
    obtain ⟨bs, hbs, h⟩ := exceptBind_ok h
    have : b :: bs = rs := by simpa [pure, Except.pure] using h
    subst this
    rcases List.mem_cons.1 hr with rfl | hr
    · exact ⟨a, List.mem_cons_self .., hb⟩
    · obtain ⟨a', ha', hfa'⟩ := ih hbs r hr
      exact ⟨a', List.mem_cons_of_mem _ ha', hfa'⟩

theorem mapE_ok_of_mem {α β : Type} {f : α → Except String β} :
    ∀ {l : List α} {rs : List β}, mapE f l = .ok rs → ∀ a ∈ l, ∃ r ∈ rs, f a = .ok r := by
  intro l
  induction l with
  | nil => intro rs h a ha; simp at ha
  | cons x t ih =>
    intro rs h a ha
    rw [mapE] at h
    obtain ⟨b, hb, h⟩ := exceptBind_ok h
    obtain ⟨bs, hbs, h⟩ := exceptBind_ok h
    have : b :: bs = rs := by simpa [pure, Except.pure] using h
    subst this
    rcases List.mem_cons.1 ha with rfl | ha
    · exact ⟨b, List.mem_cons_self .., hb⟩
    · obtain ⟨r, hr, hfr⟩ := ih hbs a ha
      exact ⟨r, List.mem_cons_of_mem _ hr, hfr⟩

theorem mapE_ok_map {α β γ : Type} {f : α → Except String β} (g : β → γ) (g' : α → γ)
    (hfg : ∀ a b, f a = .ok b → g b = g' a) :
    ∀ {l : List α} {rs : List β}, mapE f l = .ok rs → rs.map g = l.map g' := by
  intro l
  induction l with
  | nil => intro rs h; rw [mapE] at h; cases h; rfl
  | cons a t ih =>
    intro rs h
    rw [mapE] at h
    obtain ⟨b, hb, h⟩ := exceptBind_ok h
    obtain ⟨bs, hbs, h⟩ := exceptBind_ok h
    have : b :: bs = rs := by simpa [pure, Except.pure] using h
    subst this
    simp only [List.map_cons, hfg a b hb, ih hbs]

theorem lookupTeamId_mem {tc : TeamCache} {n : String} {i : Nat}
    (h : lookupTeamId tc n = some i) : i ∈ tc.map Prod.fst := by
  rw [lookupTeamId] at h
  cases hf : tc.find? (fun t => t.2 = n) with
  | none => rw [hf] at h; cases h
  | some t =>
    rw [hf] at h
    cases h
    exact List.mem_map.2 ⟨t, List.mem_of_find?_eq_some hf, rfl⟩

theorem lookupTeamIdOpt_mem {tc : TeamCache} {o : Option String} {i : Nat}
    (h : lookupTeamIdOpt tc o = some i) : i ∈ tc.map Prod.fst := by
  cases o with
  | none => cases h
  | some n => exact lookupTeamId_mem h

theorem lookupPlayerId_mem {pc : PlayerCache} {n : String} {i : String}
    (h : lookupPlayerId pc n = some i) : i ∈ pc.map Prod.fst := by
  rw [lookupPlayerId] at h
  cases hf : pc.find? (fun p => p.2 = n) with
  | none => rw [hf] at h; cases h
  | some p =>
    rw [hf] at h
    cases h
    exact List.mem_map.2 ⟨p, List.mem_of_find?_eq_some hf, rfl⟩

theorem lookupPlayerIdOpt_mem {pc : PlayerCache} {o : Option String} {i : String}
    (h : lookupPlayerIdOpt pc o = some i) : i ∈ pc.map Prod.fst := by
  cases o with
  | none => cases h
  | some n => exact lookupPlayerId_mem h

theorem expectTeam_mem {tc : TeamCache} {n : String} {i : Nat}
    (h : expectTeam tc n = .ok i) : i ∈ tc.map Prod.fst := by
  rw [expectTeam] at h
  cases hl : lookupTeamId tc n with
  | none => rw [hl] at h; cases h
  | some j => rw [hl] at h; cases h; exact lookupTeamId_mem hl

theorem isEmptyW_true_iff (w : WicketInfo) :
    w.isEmptyW = true ↔ w = ⟨none, none, none⟩ := by
  obtain ⟨po, k, fs⟩ := w
  cases po <;> cases k <;> cases fs <;> simp [WicketInfo.isEmptyW]

/-! Inversion lemmas: what a successful result of each pipeline stage
looks like. -/

theorem mkDelivery_ok {pc : PlayerCache} {oi : Nat} {ds : List DeliveryData}
    {d : DeliveryData} {r : DeliveryRow} (h : mkDelivery pc oi ds d = .ok r) :
    ∃ w et, firstWicket d.wickets = .ok w ∧ extrasType d.extras = .ok et ∧
      r = { over := (oi : ℚ) + (((ds.indexOf d : Nat) : ℚ) + 1) / 10
            batter_id := lookupPlayerId pc d.batter
            bowler_id := lookupPlayerId pc d.bowler
            non_striker_id := lookupPlayerId pc d.non_striker
            runs_batter := d.runs.batter
            runs_extras := d.runs.extras
            runs_total := d.runs.total
            extras_type := et
            is_wicket := !w.isEmptyW
            player_out_id := lookupPlayerIdOpt pc w.player_out
            wicket_kind := w.kind
            wicket_fielders := fieldersOut w.fielders } := by
  rw [mkDelivery] at h
  obtain ⟨w, hw, h⟩ := exceptBind_ok h
  obtain ⟨et, het, h⟩ := exceptBind_ok h
  exact ⟨w, et, hw, het, by simpa [pure, Except.pure] using h.symm⟩

theorem mkInning_ok {pc : PlayerCache} {tc : TeamCache} {idx : Nat}
    {idata : InningData} {row : InningRow} (h : mkInning pc tc idx idata = .ok row) :
    ∃ bt rss, expectTeam tc idata.team = .ok bt ∧
      mapE (mkOverRows pc) idata.overs = .ok rss ∧
      row = ⟨idx + 1, bt, rss.flatten⟩ := by
  rw [mkInning] at h
  obtain ⟨bt, hbt, h⟩ := exceptBind_ok h
  obtain ⟨rss, hrss, h⟩ := exceptBind_ok h
  exact ⟨bt, rss, hbt, hrss, by simpa [pure, Except.pure] using h.symm⟩

theorem mkMatch_ok {pc : PlayerCache} {tc : TeamCache} {mid : String} {doc : Doc}
    {m : MatchRow} (h : mkMatch pc tc mid doc = .ok m) :
    ∃ pomName date t1n t1 t2n t2 tw inns,
      firstPlayerOfMatch doc.info.player_of_match = .ok pomName
    ∧ getIdx doc.info.dates 0 = .ok date
    ∧ getIdx doc.info.teams 0 = .ok t1n ∧ expectTeam tc t1n = .ok t1
    ∧ getIdx doc.info.teams 1 = .ok t2n ∧ expectTeam tc t2n = .ok t2
    ∧ expectTeam tc doc.info.toss_winner = .ok tw
    ∧ mapE (fun p => mkInning pc tc p.1 p.2) doc.innings.enum = .ok inns
    ∧ m = { id := mid
            season := doc.info.season
            venue := doc.info.venue
            city := doc.info.city
            match_date := date
            match_type := doc.info.match_type
            balls_per_over := doc.info.balls_per_over
            team1_id := t1
            team2_id := t2
            toss_winner_id := tw
            toss_decision := doc.info.toss_decision
            winner_id := lookupTeamIdOpt tc (outcomeWinner doc.info.outcome)
            outcome_result := match outcomeBy doc.info.outcome with
              | some (p :: _) => some p.1
              | _ => none
            outcome_margin := match outcomeBy doc.info.outcome with
              | some (p :: _) => some p.2
              | _ => none
            player_of_match_id := lookupPlayerIdOpt pc pomName
            officials := doc.info.officials
            innings := inns } := by
  rw [mkMatch] at h
  obtain ⟨pomName, hpom, h⟩ := exceptBind_ok h
  obtain ⟨date, hdate, h⟩ := exceptBind_ok h
  obtain ⟨t1n, ht1n, h⟩ := exceptBind_ok h
  obtain ⟨t1, ht1, h⟩ := exceptBind_ok h
  obtain ⟨t2n, ht2n, h⟩ := exceptBind_ok h
  obtain ⟨t2, ht2, h⟩ := exceptBind_ok h
  obtain ⟨tw, htw, h⟩ := exceptBind_ok h
  obtain ⟨inns, hinns, h⟩ := exceptBind_ok h
  exact ⟨pomName, date, t1n, t1, t2n, t2, tw, inns, hpom, hdate, ht1n, ht1, ht2n,
    ht2, htw, hinns, by simpa [pure, Except.pure] using h.symm⟩

theorem processDoc_ok {c : Caches} {mid : String} {doc : Doc} {c' : Caches}
    {m : MatchRow} (h : processDoc c mid doc = .ok (c', m)) :
    c' = ⟨seedPlayers c.players doc.info.registry_people,
          seedTeams c.teams doc.info.teams⟩
  ∧ mkMatch (seedPlayers c.players doc.info.registry_people)
      (seedTeams c.teams doc.info.teams) mid doc = .ok m := by
  rw [processDoc] at h
  obtain ⟨m', hm', h⟩ := exceptBind_ok h
  have h2 : (⟨seedPlayers c.players doc.info.registry_people,
      seedTeams c.teams doc.info.teams⟩, m') = ((c', m) : Caches × MatchRow) := by
    simpa [pure, Except.pure] using h
  cases h2
  exact ⟨rfl, hm'⟩

/-! Lemmas about the over-value scheme. -/

theorem map_indexOf_nodup {α : Type} [DecidableEq α] :
    ∀ (l : List α), l.Nodup → l.map (fun x => l.indexOf x) = List.range l.length := by
  intro l
  induction l with
  | nil => intro _; rfl
  | cons a t ih =>
    intro hnd
    have hat : a ∉ t := (List.nodup_cons.1 hnd).1
    have htnd : t.Nodup := (List.nodup_cons.1 hnd).2
    have hmap : t.map (fun x => (a :: t).indexOf x) = t.map (fun x => t.indexOf x + 1) := by
      refine List.map_congr_left ?_
      intro x hx
      have hxa : x ≠ a := fun hxa => hat (hxa ▸ hx)
      exact List.indexOf_cons_ne t hxa.symm
    calc (a :: t).map (fun x => (a :: t).indexOf x)
        = (a :: t).indexOf a :: t.map (fun x => (a :: t).indexOf x) := by
          simp only [List.map_cons]
      _ = 0 :: t.map (fun x => t.indexOf x + 1) := by
          rw [List.indexOf_cons_self, hmap]
      _ = 0 :: (t.map (fun x => t.indexOf x)).map (fun j => j + 1) := by
          rw [List.map_map]; rfl
      _ = 0 :: (List.range t.length).map (fun j => j + 1) := by rw [ih htnd]
      _ = List.range (a :: t).length := by
          simp [List.range_succ_eq_map, Nat.succ_eq_add_one]

theorem overVals_of_nodup {od : OverData} (h : od.deliveries.Nodup) :
    overVals od = (List.range od.deliveries.length).map
      (fun (j : Nat) => (od.over : ℚ) + ((j : ℚ) + 1) / 10) := by
  calc overVals od
      = (od.deliveries.map (fun d => od.deliveries.indexOf d)).map
          (fun (j : Nat) => (od.over : ℚ) + ((j : ℚ) + 1) / 10) := by
        rw [overVals, List.map_map]; rfl
    _ = (List.range od.deliveries.length).map
          (fun (j : Nat) => (od.over : ℚ) + ((j : ℚ) + 1) / 10) := by
        rw [map_indexOf_nodup od.deliveries h]

theorem overVals_mem {od : OverData} {x : ℚ} (hx : x ∈ overVals od) :
    ∃ j : Nat, j < od.deliveries.length ∧ x = (od.over : ℚ) + ((j : ℚ) + 1) / 10 := by
  rw [overVals] at hx
  obtain ⟨d, hd, rfl⟩ := List.mem_map.1 hx
  exact ⟨od.deliveries.indexOf d, List.indexOf_lt_length.2 hd, rfl⟩

theorem overVals_pairwise {od : OverData} (h : od.deliveries.Nodup) :
    List.Pairwise (· < ·) (overVals od) := by
  rw [overVals_of_nodup h]
  refine List.Pairwise.map _ ?_ (List.pairwise_lt_range od.deliveries.length)
  intro a b hab
  have hq : (a : ℚ) < (b : ℚ) := by exact_mod_cast hab
  linarith

theorem mkOverRows_ok_overs {pc : PlayerCache} {od : OverData}
    {rs : List DeliveryRow} (h : mkOverRows pc od = .ok rs) :
    rs.map (fun r => r.over) = overVals od := by
  rw [mkOverRows] at h
  rw [overVals]
  exact mapE_ok_map (fun r => r.over)
    (fun d => (od.over : ℚ) + (((od.deliveries.indexOf d : Nat) : ℚ) + 1) / 10)
    (fun d r hr => by obtain ⟨w, et, _, _, rfl⟩ := mkDelivery_ok hr; rfl) h

/-! Lemmas about the team cache. -/

theorem resolveTeam_names_nodup {c : TeamCache} {n : String}
    (h : (c.map (fun t => t.2)).Nodup) :
    (((resolveTeam c n).2).map (fun t => t.2)).Nodup := by
  cases hf : c.find? (fun t => t.2 = n) with
  | some t => simpa [resolveTeam, hf] using h
  | none =>
    have hnotin : n ∉ c.map (fun t => t.2) := by
      intro hmem
      obtain ⟨t, ht, ht2⟩ := List.mem_map.1 hmem
      have := List.find?_eq_none.1 hf t ht
      simp [ht2] at this
    simp only [resolveTeam, hf, List.map_append]
    refine List.Nodup.append h (List.nodup_singleton n) ?_
    intro a ha hb
    have hb' : a = n := by simpa using hb
    exact hnotin (hb' ▸ ha)

theorem seedTeams_names_nodup :
    ∀ (names : List String) (c : TeamCache),
      (c.map (fun t => t.2)).Nodup → ((seedTeams c names).map (fun t => t.2)).Nodup := by
  intro names
  induction names with
  | nil => intro c h; exact h
  | cons n ns ih =>
    intro c h
    exact ih (resolveTeam c n).2 (resolveTeam_names_nodup h)

theorem foldl_seedTeams_names_nodup :
    ∀ (docsTeams : List (List String)) (c : TeamCache),
      (c.map (fun t => t.2)).Nodup →
      ((docsTeams.foldl seedTeams c).map (fun t => t.2)).Nodup := by
  intro docsTeams
  induction docsTeams with
  | nil => intro c h; exact h
  | cons ts rest ih =>
    intro c h
    exact ih (seedTeams c ts) (seedTeams_names_nodup ts c h)

/-! Claim theorems. -/

/-- C5: within one run, resolving the same team name any number of times
yields the same team identifier — a second `resolveTeam` with the same name
returns the id of the first and leaves the cache unchanged — and any cache
built by seeding the team lists of any sequence of documents into an
initially empty cache holds at most one row per team name. -/
theorem c5_resolve_team_idempotent :
    (∀ (c : TeamCache) (n : String),
        resolveTeam (resolveTeam c n).2 n = ((resolveTeam c n).1, (resolveTeam c n).2))
  ∧ ∀ (docsTeams : List (List String)) (n : String),
      (docsTeams.foldl seedTeams []).countP (fun t => t.2 == n) ≤ 1 := by
  constructor
  · intro c n
    cases hf : c.find? (fun t => t.2 = n) with
    | some t => simp [resolveTeam, hf]
    | none => simp [resolveTeam, hf, List.find?_append, List.find?]
  · intro docsTeams n
    have hnd : ((docsTeams.foldl seedTeams []).map (fun t => t.2)).Nodup :=
      foldl_seedTeams_names_nodup docsTeams [] (by simp)
    have hcount := List.nodup_iff_count_le_one.1 hnd n
    calc (docsTeams.foldl seedTeams []).countP (fun t => t.2 == n)
        = ((docsTeams.foldl seedTeams []).map (fun t => t.2)).countP (fun s => s == n) := by
          rw [List.countP_map]; rfl
      _ ≤ 1 := hcount

/-- C10: a delivery carrying a `wickets` key whose value is the empty list
makes wicket extraction index into an empty list: `mkDelivery` raises the
uncaught `IndexError`, and no innings containing such a delivery can be
decomposed successfully — the run aborts. Delivery processing is therefore
total only when `wickets`, if present, is non-empty. -/
theorem c10_empty_wickets_error (pc : PlayerCache) (d : DeliveryData)
    (h : d.wickets = some []) :
    (∀ (oi : Nat) (ds : List DeliveryData),
        mkDelivery pc oi ds d = .error "list index out of range")
  ∧ ∀ (tc : TeamCache) (idx : Nat) (idata : InningData) (od : OverData),
      od ∈ idata.overs → d ∈ od.deliveries →
      ∀ row, mkInning pc tc idx idata ≠ .ok row := by
  have hDel : ∀ (oi : Nat) (ds : List DeliveryData),
      mkDelivery pc oi ds d = .error "list index out of range" := by
    intro oi ds
    rw [mkDelivery, h]
    rfl
  refine ⟨hDel, ?_⟩
  intro tc idx idata od hod hd row hok
  obtain ⟨bt, rss, _, hrss, _⟩ := mkInning_ok hok
  obtain ⟨rs, _, hors⟩ := mapE_ok_of_mem hrss od hod
  rw [mkOverRows] at hors
  obtain ⟨r, _, hdr⟩ := mapE_ok_of_mem hors d hd
  rw [hDel od.over od.deliveries] at hdr
  cases hdr

/-- C10 witness: the concrete delivery `emptyWicketsBall` raises the index
error. -/
theorem c10_empty_wickets_error_witness :
    mkDelivery [] 0 [emptyWicketsBall] emptyWicketsBall =
      .error "list index out of range" :=
  (c10_empty_wickets_error [] emptyWicketsBall rfl).1 0 [emptyWicketsBall]

theorem isEmptyW_false_of_kind {w : WicketInfo} (h : w.kind ≠ none) :
    w.isEmptyW = false := by
  cases hb : w.isEmptyW with
  | false => rfl
  | true =>
    have hw : w = ⟨none, none, none⟩ := (isEmptyW_true_iff w).1 hb
    exact absurd (by rw [hw]) h

/-- C3 counterexample: the delivery `noKindWicketBall` carries a wicket
entry without a `kind` key; the code marks `is_wicket` true while
`wicket_kind` stays null, so `is_wicket` does not coincide with
`wicket_kind` being non-null. -/
theorem c3_counterexample :
    mkDelivery [] 0 [noKindWicketBall] noKindWicketBall = .ok noKindRow
  ∧ ¬ (noKindRow.is_wicket = true ↔ noKindRow.wicket_kind ≠ none) := by
  constructor
  · simp [mkDelivery, firstWicket, extrasType, lookupPlayerId, lookupPlayerIdOpt,
      fieldersOut, WicketInfo.isEmptyW, Bind.bind, Except.bind, pure, Except.pure,
      noKindWicketBall, noKindRow]
  · simp [noKindRow]

/-- C3 amended: for every successfully processed delivery, `is_wicket` is
true iff the delivery's first wicket entry exists and is non-empty;
`wicket_kind` being non-null implies `is_wicket` (but not conversely, since
a wicket entry may omit `kind`); and `player_out_id`, `wicket_kind` and
`wicket_fielders` are populated only when `is_wicket` is true. -/
theorem c3_amended_wicket_fields (pc : PlayerCache) (oi : Nat)
    (ds : List DeliveryData) (d : DeliveryData) (r : DeliveryRow)
    (h : mkDelivery pc oi ds d = .ok r) :
    (r.is_wicket = true ↔ ∃ w rest, d.wickets = some (w :: rest) ∧ w.isEmptyW = false)
  ∧ (r.wicket_kind ≠ none → r.is_wicket = true)
  ∧ (r.is_wicket = false →
      r.player_out_id = none ∧ r.wicket_kind = none ∧ r.wicket_fielders = none) := by
  obtain ⟨w, et, hw, het, rfl⟩ := mkDelivery_ok h
  cases hwk : d.wickets with
  | none =>
    rw [hwk] at hw
    have hw' : w = ⟨none, none, none⟩ := by simpa [firstWicket] using hw.symm
    subst hw'
    refine ⟨?_, ?_, ?_⟩
    · simp [hwk, WicketInfo.isEmptyW]
    · intro hk; exact absurd rfl hk
    · intro _; exact ⟨rfl, rfl, rfl⟩
  | some l =>
    cases l with
    | nil => rw [hwk] at hw; simp [firstWicket] at hw
    | cons w0 rest =>
      rw [hwk] at hw
      have hw' : w0 = w := by simpa [firstWicket] using hw
      subst hw'
      refine ⟨?_, ?_, ?_⟩
      · simp only [hwk]
        constructor
        · intro hbw
          exact ⟨w0, rest, rfl, by simpa using hbw⟩
        · rintro ⟨w', rest', heq, hne⟩
          have hww : w' = w0 := by
            have := heq
            simp only [Option.some.injEq, List.cons.injEq] at this
            exact this.1.symm
          subst hww
          simp [hne]
      · intro hk
        have hk' : w0.kind ≠ none := hk
        show (!w0.isEmptyW) = true
        rw [isEmptyW_false_of_kind hk']
        rfl
      · intro hfw
        have hw1 : w0.isEmptyW = true := by simpa using hfw
        have hw0 : w0 = ⟨none, none, none⟩ := (isEmptyW_true_iff w0).1 hw1
        subst hw0
        exact ⟨rfl, rfl, rfl⟩

/-- C3 amended witness: the §8 bowled-wicket scenario, applied through the
amended theorem. -/
theorem c3_amended_wicket_fields_witness :
    (mkDelivery pcThree 0 [bowledBall] bowledBall).map (fun r => r.is_wicket) =
      .ok true := by
  cases hok : mkDelivery pcThree 0 [bowledBall] bowledBall with
  | error e =>
    exact absurd hok (by
      simp [mkDelivery, firstWicket, extrasType, Bind.bind, Except.bind, pure,
        Except.pure, bowledBall, pcThree])
  | ok r =>
    have h3 := c3_amended_wicket_fields pcThree 0 [bowledBall] bowledBall r hok
    have hiw : r.is_wicket = true := h3.1.2 ⟨_, _, rfl, rfl⟩
    simp [Except.map, hiw]

/-- C9 counterexample: a delivery whose `extras` key is present with an
empty dict crashes delivery processing with an uncaught `IndexError`
instead of producing a row whose `extras_type` is the (non-existent) first
key. -/
theorem c9_counterexample :
    emptyExtrasBall.extras = some []
  ∧ mkDelivery [] 0 [emptyExtrasBall] emptyExtrasBall = .error "list index out of range"
  ∧ ¬ ∃ r, mkDelivery [] 0 [emptyExtrasBall] emptyExtrasBall = .ok r := by
  refine ⟨rfl, rfl, ?_⟩
  rintro ⟨r, hr⟩
  rw [show mkDelivery [] 0 [emptyExtrasBall] emptyExtrasBall =
      .error "list index out of range" from rfl] at hr
  cases hr

/-- C9 amended: for every successfully processed delivery the three run
fields are copied directly from the delivery's run breakdown, and
`extras_type` is the first key of the extras dict when one is present and
non-empty and null when the key is absent; a present-but-empty extras dict
makes delivery processing raise an uncaught `IndexError` instead. -/
theorem c9_amended_extras_runs (pc : PlayerCache) (oi : Nat)
    (ds : List DeliveryData) (d : DeliveryData) :
    (∀ r, mkDelivery pc oi ds d = .ok r →
        r.runs_batter = d.runs.batter ∧ r.runs_extras = d.runs.extras
      ∧ r.runs_total = d.runs.total
      ∧ (d.extras = none → r.extras_type = none)
      ∧ (∀ e l, d.extras = some (e :: l) → r.extras_type = some e.1))
  ∧ (d.extras = some [] → ∀ r, mkDelivery pc oi ds d ≠ .ok r) := by
  constructor
  · intro r h
    obtain ⟨w, et, hw, het, rfl⟩ := mkDelivery_ok h
    refine ⟨rfl, rfl, rfl, ?_, ?_⟩
    · intro hx
      rw [hx] at het
      have : et = none := by simpa [extrasType] using het.symm
      subst this
      rfl
    · intro e l hx
      rw [hx] at het
      have : et = some e.1 := by simpa [extrasType] using het.symm
      subst this
      rfl
  · intro hx r h
    rw [mkDelivery, hx] at h
    obtain ⟨w, hw, h⟩ := exceptBind_ok h
    obtain ⟨et, het, h⟩ := exceptBind_ok h
    simp [extrasType] at het

/-- C9 amended witness: a wide ball with extras dict `{wides: 1}`. -/
theorem c9_amended_extras_runs_witness :
    (mkDelivery pcThree 0 [wideBall] wideBall).map (fun r => r.extras_type) =
      .ok (some "wides") := by
  cases hok : mkDelivery pcThree 0 [wideBall] wideBall with
  | error e =>
    exact absurd hok (by
      simp [mkDelivery, firstWicket, extrasType, Bind.bind, Except.bind, pure,
        Except.pure, wideBall, pcThree])
  | ok r =>
    have h9 := (c9_amended_extras_runs pcThree 0 [wideBall] wideBall).1 r hok
    have het : r.extras_type = some "wides" := h9.2.2.2.2 ("wides", 1) [] rfl
    simp [Except.map, het]

/-- C1: the decomposer's stored over value is content-based, not
positional. In an over with declared index 0 whose two deliveries are the
identical `dotBall`, both rows receive over value `0 + (0 + 1) / 10 = 1/10`
because `list.index` finds the first equal entry, while the claimed purely
positional scheme would give the second delivery `0 + 2 / 10`. -/
theorem c1_positional_scheme_refuted :
    (mkOverRows [] dupOver).map (fun rs => rs.map (fun r => r.over)) =
      .ok [1/10, 1/10]
  ∧ (1 : ℚ)/10 ≠ (0 : ℚ) + (2 : ℚ)/10 := by
  constructor
  · simp [mkOverRows, mapE, mkDelivery, firstWicket, extrasType, dupOver, dotBall,
      Except.map, Bind.bind, Except.bind, pure, Except.pure, lookupPlayerId,
      lookupPlayerIdOpt, WicketInfo.isEmptyW, fieldersOut]
  · norm_num

/-- C2 counterexample: the innings `dupInning` has a single over (so its
declared over indices are trivially distinct and increasing), yet because
its over repeats one delivery around a distinct one the stored over values
run 1/10, 2/10, 1/10 — not strictly increasing and not even
non-decreasing. -/
theorem c2_counterexample :
    mkInning [] tcOne 0 dupInning = .ok dupInningRow
  ∧ List.Pairwise (· < ·) (dupInning.overs.map OverData.over)
  ∧ ¬ List.Pairwise (· ≤ ·) (dupInningRow.deliveries.map (fun r => r.over)) := by
  refine ⟨?_, ?_, ?_⟩
  · norm_num [mkInning, expectTeam, lookupTeamId, mkOverRows, mapE, mkDelivery,
      firstWicket, extrasType, lookupPlayerId, lookupPlayerIdOpt, fieldersOut,
      WicketInfo.isEmptyW, Bind.bind, Except.bind, pure, Except.pure, dupInning,
      dotBall, fourBall, tcOne, dupInningRow, dupDotRow, dupFourRow]
  · simp [dupInning]
  · intro hp
    have hlist : dupInningRow.deliveries.map (fun r => r.over) =
        [1/10, 2/10, 1/10] := by
      simp [dupInningRow, dupDotRow, dupFourRow]
    rw [hlist] at hp
    have h21 : ((2 : ℚ)/10) ≤ 1/10 := by
      have h1 := List.pairwise_cons.1 hp
      have h2 := List.pairwise_cons.1 h1.2
      exact h2.1 (1/10) (by simp)
    norm_num at h21

/-- C2 amended: for every innings whose overs carry distinct declared over
indices in increasing order, the stored over values of its deliveries
strictly increase in document order, provided additionally that each over's
recorded deliveries are pairwise distinct and number at most nine (the
spec's own assumption for the fractional encoding). -/
theorem c2_amended_strict_increase (pc : PlayerCache) (tc : TeamCache) (idx : Nat)
    (idata : InningData) (row : InningRow)
    (hmono : List.Pairwise (· < ·) (idata.overs.map OverData.over))
    (hnd : ∀ od ∈ idata.overs, od.deliveries.Nodup)
    (hlen : ∀ od ∈ idata.overs, od.deliveries.length ≤ 9)
    (hok : mkInning pc tc idx idata = .ok row) :
    List.Pairwise (· < ·) (row.deliveries.map (fun r => r.over)) := by
  obtain ⟨bt, rss, hbt, hrss, hrow⟩ := mkInning_ok hok
  have hmap : row.deliveries.map (fun r => r.over) =
      (idata.overs.map overVals).flatten := by
    rw [hrow]
    show (rss.flatten.map fun r => r.over) = _
    rw [List.map_flatten]
    congr 1
    exact mapE_ok_map (List.map (fun r => r.over)) overVals
      (fun od rs h => mkOverRows_ok_overs h) hrss
  rw [hmap, List.pairwise_flatten]
  constructor
  · intro l hl
    obtain ⟨od, hod, rfl⟩ := List.mem_map.1 hl
    exact overVals_pairwise (hnd od hod)
  · rw [List.pairwise_map]
    have hp : List.Pairwise (fun od od' : OverData => od.over < od'.over) idata.overs :=
      List.pairwise_map.1 hmono
    refine List.Pairwise.imp_of_mem ?_ hp
    intro od od' hod hod' hlt x hx y hy
    obtain ⟨j, hj, rfl⟩ := overVals_mem hx
    obtain ⟨j', hj', rfl⟩ := overVals_mem hy
    have h9 : j + 1 ≤ 9 := le_trans (Nat.succ_le_of_lt hj) (hlen od hod)
    have hko : od.over + 1 ≤ od'.over := hlt
    have h9q : (j : ℚ) + 1 ≤ 9 := by exact_mod_cast h9
    have hkq : ((od.over : ℚ)) + 1 ≤ ((od'.over : ℚ)) := by exact_mod_cast hko
    have hj0 : (0 : ℚ) ≤ (j' : ℚ) := by positivity
    linarith

/-- C2 amended witness: the two-over innings `okInning` satisfies the
hypotheses, and its stored over values strictly increase. -/
theorem c2_amended_strict_increase_witness :
    List.Pairwise (· < ·) (amInningRow.deliveries.map (fun r => r.over)) :=
  c2_amended_strict_increase [] tcOne 0 okInning amInningRow
    (by simp [okInning]) (by decide) (by decide)
    (by norm_num [mkInning, expectTeam, lookupTeamId, mkOverRows, mapE, mkDelivery,
      firstWicket, extrasType, lookupPlayerId, lookupPlayerIdOpt, fieldersOut,
      WicketInfo.isEmptyW, Bind.bind, Except.bind, pure, Except.pure, okInning,
      dotBall, fourBall, tcOne, amInningRow, dupDotRow, dupFourRow, amDotRow2])

/-- C6: for every successfully processed document, the caches used at
assembly are exactly the caches produced by the resolution (seeding) phase,
and every team or player foreign key of the match, innings and delivery
rows that is populated refers to an entity present in those caches. -/
theorem c6_foreign_keys_resolved (c : Caches) (mid : String) (doc : Doc)
    (c' : Caches) (m : MatchRow) (h : processDoc c mid doc = .ok (c', m)) :
    c' = ⟨seedPlayers c.players doc.info.registry_people,
          seedTeams c.teams doc.info.teams⟩
  ∧ m.team1_id ∈ c'.teams.map Prod.fst
  ∧ m.team2_id ∈ c'.teams.map Prod.fst
  ∧ m.toss_winner_id ∈ c'.teams.map Prod.fst
  ∧ (∀ i, m.winner_id = some i → i ∈ c'.teams.map Prod.fst)
  ∧ (∀ p, m.player_of_match_id = some p → p ∈ c'.players.map Prod.fst)
  ∧ ∀ ir ∈ m.innings,
      ir.batting_team_id ∈ c'.teams.map Prod.fst
    ∧ ∀ dr ∈ ir.deliveries,
        (∀ p, dr.batter_id = some p → p ∈ c'.players.map Prod.fst)
      ∧ (∀ p, dr.bowler_id = some p → p ∈ c'.players.map Prod.fst)
      ∧ (∀ p, dr.non_striker_id = some p → p ∈ c'.players.map Prod.fst)
      ∧ (∀ p, dr.player_out_id = some p → p ∈ c'.players.map Prod.fst) := by
  obtain ⟨hc', hmk⟩ := processDoc_ok h
  subst hc'
  obtain ⟨pomName, date, t1n, t1, t2n, t2, tw, inns, hpom, hdate, ht1n, ht1,
    ht2n, ht2, htw, hinns, hm⟩ := mkMatch_ok hmk
  subst hm
  refine ⟨rfl, expectTeam_mem ht1, expectTeam_mem ht2, expectTeam_mem htw,
    fun i hi => lookupTeamIdOpt_mem hi, fun p hp => lookupPlayerIdOpt_mem hp, ?_⟩
  intro ir hir
  obtain ⟨pr, hpr, hmkInn⟩ := mapE_ok_mem hinns ir hir
  obtain ⟨bt, rss, hbt, hrss, hirow⟩ := mkInning_ok hmkInn
  subst hirow
  refine ⟨expectTeam_mem hbt, ?_⟩
  intro dr hdr
  obtain ⟨rs, hrs, hdr'⟩ := List.mem_flatten.1 hdr
  obtain ⟨od, hod, hors⟩ := mapE_ok_mem hrss rs hrs
  rw [mkOverRows] at hors
  obtain ⟨d, hd, hmkd⟩ := mapE_ok_mem hors dr hdr'
  obtain ⟨w, et, hw, het, hdrow⟩ := mkDelivery_ok hmkd
  subst hdrow
  exact ⟨fun p hp => lookupPlayerId_mem hp, fun p hp => lookupPlayerId_mem hp,
    fun p hp => lookupPlayerId_mem hp, fun p hp => lookupPlayerIdOpt_mem hp⟩

/-- C6 witness: `sampleDoc` processed from empty caches; its first team
foreign key is a cached team id. -/
theorem c6_foreign_keys_resolved_witness :
    sampleMatchRow.team1_id ∈ tcTwo.map Prod.fst :=
  (c6_foreign_keys_resolved ⟨[], []⟩ "m1" sampleDoc ⟨pcThree, tcTwo⟩ sampleMatchRow
    (by simp [processDoc, mkMatch, mkInning, mkOverRows, mapE, mkDelivery,
      firstWicket, extrasType, firstPlayerOfMatch, getIdx, expectTeam, lookupTeamId,
      lookupTeamIdOpt, lookupPlayerId, lookupPlayerIdOpt, seedPlayers, seedTeams,
      resolveTeam, outcomeBy, outcomeWinner, fieldersOut, WicketInfo.isEmptyW,
      Bind.bind, Except.bind, pure, Except.pure, sampleDoc, dotBall, pcThree, tcTwo,
      sampleMatchRow, sampleDeliveryRow])).2.1

/-- C8 counterexample: `byEmptyDoc` carries a present-but-empty `by`
structure; the assembler sets both outcome fields to null, and no first
key/value pair of the present structure exists for them to equal. -/
theorem c8_counterexample :
    mkMatch [] tcTwo "m8" byEmptyDoc = .ok byEmptyMatchRow
  ∧ (outcomeBy byEmptyDoc.info.outcome).isSome = true
  ∧ byEmptyMatchRow.outcome_result = none
  ∧ byEmptyMatchRow.outcome_margin = none
  ∧ ¬ ∃ p l, outcomeBy byEmptyDoc.info.outcome = some (p :: l)
      ∧ byEmptyMatchRow.outcome_result = some p.1 := by
  refine ⟨?_, rfl, rfl, rfl, ?_⟩
  · simp [mkMatch, mkInning, mkOverRows, mapE, mkDelivery, firstWicket, extrasType,
      firstPlayerOfMatch, getIdx, expectTeam, lookupTeamId, lookupTeamIdOpt,
      lookupPlayerId, lookupPlayerIdOpt, outcomeBy, outcomeWinner, fieldersOut,
      WicketInfo.isEmptyW, Bind.bind, Except.bind, pure, Except.pure, byEmptyDoc,
      tcTwo, byEmptyMatchRow]
  · rintro ⟨p, l, hby, _⟩
    simp [outcomeBy, byEmptyDoc] at hby

/-- C8 amended: the assembler sets `(outcome_result, outcome_margin)` to
exactly the first key/value pair of the outcome's `by` structure when that
structure is present and non-empty, and sets both fields to null when it is
absent or present but empty. -/
theorem c8_amended_outcome_first_pair (pc : PlayerCache) (tc : TeamCache)
    (mid : String) (doc : Doc) (m : MatchRow) (h : mkMatch pc tc mid doc = .ok m) :
    (∀ p l, outcomeBy doc.info.outcome = some (p :: l) →
        m.outcome_result = some p.1 ∧ m.outcome_margin = some p.2)
  ∧ ((outcomeBy doc.info.outcome = none ∨ outcomeBy doc.info.outcome = some []) →
        m.outcome_result = none ∧ m.outcome_margin = none) := by
  obtain ⟨pomName, date, t1n, t1, t2n, t2, tw, inns, _, _, _, _, _, _, _, _, hm⟩ :=
    mkMatch_ok h
  subst hm
  constructor
  · intro p l hby
    constructor <;> simp [hby]
  · rintro (hby | hby) <;> constructor <;> simp [hby]

/-- C8 amended witness: a win by 20 runs yields `("runs", 20)`. -/
theorem c8_amended_outcome_first_pair_witness :
    (mkMatch [] tcTwo "m9" byRunsDoc).map
      (fun m => (m.outcome_result, m.outcome_margin)) =
    .ok (some "runs", some (20 : Int)) := by
  cases hok : mkMatch [] tcTwo "m9" byRunsDoc with
  | error e =>
    exact absurd hok (by
      simp [mkMatch, mapE, firstPlayerOfMatch, getIdx, expectTeam, lookupTeamId,
        lookupTeamIdOpt, outcomeBy, outcomeWinner, Bind.bind, Except.bind, pure,
        Except.pure, byRunsDoc, tcTwo])
  | ok m =>
    have h8 := (c8_amended_outcome_first_pair [] tcTwo "m9" byRunsDoc m hok).1
      ("runs", 20) [] rfl
    simp [Except.map, h8.1, h8.2]

/-- C4: the run does not tolerate malformed source files. A run over a
malformed file followed by a well-formed one aborts at the malformed file
with the uncaught decode error; no per-file failure report is produced and
the following document is never processed, contrary to the required
skip-and-continue behaviour. -/
theorem c4_malformed_document_aborts_run :
    processRun false [("bad.json", none), ("m1.json", some sampleDoc)] =
      .error "JSONDecodeError: bad.json" := rfl

/-- C7 counterexample: with one document loaded and the final commit
failing, the run returns normally (no error is surfaced to the caller): the
team and player rows committed by the per-document commit remain, and the
pending match row is silently rolled back. -/
theorem c7_counterexample :
    processRun true sampleFiles = .ok ⟨⟨tcTwo, pcThree, []⟩, emptyStore⟩
  ∧ (⟨tcTwo, pcThree, []⟩ : Store).teams ≠ []
  ∧ (⟨tcTwo, pcThree, []⟩ : Store).matchRows = []
  ∧ ¬ ∃ e, processRun true sampleFiles = .error e := by
  have h : processRun true sampleFiles = .ok ⟨⟨tcTwo, pcThree, []⟩, emptyStore⟩ := by
    norm_num [processRun, processLoop, processFile, initState, List.foldlM, mkMatch,
      mkInning, mkOverRows, mapE, mkDelivery, firstWicket, extrasType,
      firstPlayerOfMatch, getIdx, expectTeam, lookupTeamId, lookupTeamIdOpt,
      lookupPlayerId, lookupPlayerIdOpt, seedPlayers, seedTeams, resolveTeam,
      outcomeBy, outcomeWinner, fieldersOut, WicketInfo.isEmptyW, stem, Store.push,
      Session.commit, Session.rollback, emptyStore, Bind.bind, Except.bind, pure,
      Except.pure, sampleFiles, sampleDoc, dotBall, pcThree, tcTwo, sampleMatchRow,
      sampleDeliveryRow]
    rfl
  refine ⟨h, by simp [tcTwo], rfl, ?_⟩
  rintro ⟨e, he⟩
  rw [h] at he
  cases he

/-- C7 amended: when the final commit of a run fails, all uncommitted
writes are rolled back while rows committed by earlier per-document commits
remain in the store, but the failure is caught and only logged — the
function returns normally instead of surfacing the failure to the
caller. -/
theorem c7_amended_rollback_not_raised (files : List (String × Option Doc))
    (st : Caches × Session) (h : processLoop files = .ok st) :
    processRun true files = .ok ⟨st.2.committed, emptyStore⟩ := by
  simp [processRun, h, Session.rollback]

/-- C7 amended witness: the one-document run `sampleFiles`. -/
theorem c7_amended_rollback_not_raised_witness :
    processRun true sampleFiles = .ok ⟨⟨tcTwo, pcThree, []⟩, emptyStore⟩ :=
  c7_amended_rollback_not_raised sampleFiles sampleLoopState
    (by
      norm_num [processLoop, processFile, initState, List.foldlM, mkMatch, mkInning,
        mkOverRows, mapE, mkDelivery, firstWicket, extrasType, firstPlayerOfMatch,
        getIdx, expectTeam, lookupTeamId, lookupTeamIdOpt, lookupPlayerId,
        lookupPlayerIdOpt, seedPlayers, seedTeams, resolveTeam, outcomeBy,
        outcomeWinner, fieldersOut, WicketInfo.isEmptyW, stem, Store.push,
        Session.commit, Session.rollback, emptyStore, Bind.bind, Except.bind, pure,
        Except.pure, sampleFiles, sampleDoc, dotBall, pcThree, tcTwo, sampleMatchRow,
        sampleDeliveryRow, sampleLoopState]
      rfl)

end IPL
